import Mathlib

/-!
# Verification of go-strval

Shallow embedding of the go-strval repository: the `Bool`, `Int` and `Float`
wrapper types (`strval.go` and the extended variant with database adapters),
the shared `parseBool` helper, and the JSON/YAML (un)marshalling and
`database/sql` Scan code paths.

Modelling choices:

* A JSON/YAML document token is `JToken`: boolean, numeric literal in integer
  form, numeric literal with a fraction or exponent (carried as the exact
  rational value it denotes), string, null, or any other kind (array/object),
  the latter tagged with a description used in Go's error texts.
* A Go `float64` is `GoFloat`: a finite value carried as the exact rational it
  denotes, or NaN, or a signed infinity.  The claims only exercise values and
  string spellings whose decimal reading is exactly representable, so binary
  rounding is not modelled; Go's shortest-round-trip printing guarantees make
  the serialize/deserialize compositions exact in the same way.
* A Go method that logs through `slog.Error` and returns an `error` is
  embedded as a function into `GoResult α`: the new receiver value, the list
  of emitted log records, and the returned error (`none` = `nil`).
* `encoding/json` semantics relevant here: unmarshalling JSON `null` into a
  non-pointer Go `bool`/`int`/`float64`/`string` is a no-op that returns no
  error, so the freshly declared local keeps its zero value; unmarshalling a
  numeric literal with a fraction or exponent into `int` fails; integer
  literals out of `int64` range fail; numeric literals overflowing `float64`
  fail.
* `yaml.v3` scalar decoding is lenient in ways `encoding/json` is not, so
  the YAML paths use their own node type `YNode` carrying each scalar's
  literal text alongside its resolved value; see the section on yaml.v3
  decoding below for the acceptance rules modelled.
-/

set_option maxRecDepth 100000
set_option exponentiation.threshold 1100

namespace Strval

/-- Double-quote a string as Go's `%q` formatting of these error texts does
(none of the inputs exercised here need escape sequences). -/
def goQuote (s : String) : String :=
  "\"" ++ s ++ "\""

instance {ε α : Type} [DecidableEq ε] [DecidableEq α] : DecidableEq (Except ε α) :=
  fun x y =>
    match x, y with
    | .ok a, .ok b =>
      if h : a = b then .isTrue (by rw [h]) else .isFalse (fun he => h (Except.ok.inj he))
    | .error a, .error b =>
      if h : a = b then .isTrue (by rw [h]) else .isFalse (fun he => h (Except.error.inj he))
    | .ok _, .error _ => .isFalse (by intro h; exact Except.noConfusion h)
    | .error _, .ok _ => .isFalse (by intro h; exact Except.noConfusion h)

/-- A structured log record as emitted through `slog.Error(msg, k, v, ...)`. -/
structure LogRecord where
  msg : String
  attrs : List (String × String)
deriving DecidableEq, Repr

/-- Result of a Go unmarshal/scan method: the receiver's new value, the log
records emitted during the call, and the `error` the method returned
(`none` models Go's `nil`). -/
structure GoResult (α : Type) where
  value : α
  logs : List LogRecord
  ret : Option String
deriving DecidableEq, Repr

/-- A Go `float64`: exact rational for finite values, NaN, or ±Inf
(`inf true` is negative infinity). -/
inductive GoFloat where
  | finite (q : ℚ)
  | nan
  | inf (neg : Bool)
deriving DecidableEq, Repr

/-- One JSON/YAML scalar-level token, as resolved by the host codec.
`jint` is a numeric literal in plain integer form; `jfloat` is a numeric
literal carrying a fraction or exponent, with the exact rational value it
denotes; `jother` is any non-scalar token (array/object), tagged with the
kind description Go's decoder uses in its error text. -/
inductive JToken where
  | jbool (b : Bool)
  | jint (n : ℤ)
  | jfloat (q : ℚ)
  | jstring (s : String)
  | jnull
  | jother (desc : String)
deriving DecidableEq, Repr

/-- A raw database value handed to `Scan` (`driver.Value`): nil, bool, int64,
float64, string, or any other dynamic type (e.g. `[]byte`, `time.Time`),
tagged with its Go type name as printed by `fmt.Sprintf("%T", value)`. -/
inductive SqlValue where
  | vnull
  | vbool (b : Bool)
  | vint (n : ℤ)
  | vfloat (f : GoFloat)
  | vstring (s : String)
  | vother (typeName : String)
deriving DecidableEq, Repr

/-! ## String helpers: `strings.TrimSpace` and `strings.ToLower` -/

/-- `unicode.IsSpace` for the code points Go treats as white space
(Latin-1 range plus the Unicode `Zs` separators). -/
def goIsSpace (c : Char) : Bool :=
  c = '\t' ∨ c = '\n' ∨ c.toNat = 11 ∨ c.toNat = 12 ∨ c = '\r' ∨ c = ' ' ∨
  c.toNat = 0x85 ∨ c.toNat = 0xA0 ∨ c.toNat = 0x1680 ∨
  (0x2000 ≤ c.toNat ∧ c.toNat ≤ 0x200A) ∨
  c.toNat = 0x2028 ∨ c.toNat = 0x2029 ∨ c.toNat = 0x202F ∨
  c.toNat = 0x205F ∨ c.toNat = 0x3000

/-- `strings.TrimSpace`: drop leading and trailing white space. -/
def goTrimSpace (s : String) : String :=
  String.mk (((s.toList.dropWhile goIsSpace).reverse.dropWhile goIsSpace).reverse)

/-- Lower-case one character as `unicode.ToLower` does.  Only the ASCII
letters, plus the two non-ASCII code points whose lower case is ASCII
(Kelvin sign U+212A and dotted capital I U+0130), can influence a comparison
against an ASCII keyword; other case mappings stay within non-ASCII and are
left as the identity here. -/
def goToLowerChar (c : Char) : Char :=
  if 'A' ≤ c ∧ c ≤ 'Z' then Char.ofNat (c.toNat + 32)
  else if c.toNat = 0x212A then 'k'
  else if c.toNat = 0x130 then 'i'
  else c

/-- `strings.ToLower`. -/
def goToLower (s : String) : String :=
  String.mk (s.toList.map goToLowerChar)

/-- `parseBool` from strval.go: trim, lower-case, then match the closed
word table; anything else is an error carrying the normalized text. -/
def parseBool (s : String) : Except String Bool :=
  let t := goToLower (goTrimSpace s)
  if t = "true" ∨ t = "yes" ∨ t = "y" ∨ t = "1" then .ok true
  else if t = "false" ∨ t = "no" ∨ t = "n" ∨ t = "0" then .ok false
  else .error ("cannot parse '" ++ t ++ "' as bool")

/-! ## Numeric string parsing: `strconv.Atoi` and `strconv.ParseFloat` -/

/-- Value of a list of ASCII digits, most significant first. -/
def digitsVal (cs : List Char) : ℕ :=
  cs.foldl (fun a c => 10 * a + (c.toNat - 48)) 0

/-- Split an optional leading sign off a character list; `true` = negative. -/
def splitSign : List Char → Bool × List Char
  | '+' :: r => (false, r)
  | '-' :: r => (true, r)
  | r => (false, r)

/-- `strconv.Atoi` (= `ParseInt(s, 10, 0)` on a 64-bit platform): an optional
sign followed by one or more ASCII digits, nothing else, and the result must
fit in `int64`; otherwise an error. -/
def goAtoi (s : String) : Except String ℤ :=
  let (neg, ds) := splitSign s.toList
  if ds = [] ∨ ¬ ds.all Char.isDigit then
    .error ("strconv.Atoi: parsing " ++ goQuote s ++ ": invalid syntax")
  else
    let v : ℤ := (if neg then -1 else 1) * (digitsVal ds : ℤ)
    if v < -((2 ^ 63 : ℕ) : ℤ) ∨ ((2 ^ 63 : ℕ) : ℤ) ≤ v then
      .error ("strconv.Atoi: parsing " ++ goQuote s ++ ": value out of range")
    else .ok v

/-- Mantissa grammar of a Go float literal: digits, optionally with a single
decimal point (`"5."`, `".5"` and `"5.5"` all valid; a lone `"."` is not).
Returns (integer digits, fraction digits, remainder) or none on a malformed
mantissa. -/
def splitMantissa (cs : List Char) : Option (List Char × List Char × List Char) :=
  let ip := cs.takeWhile Char.isDigit
  let rest := cs.dropWhile Char.isDigit
  match rest with
  | '.' :: r =>
    let fp := r.takeWhile Char.isDigit
    if ip = [] ∧ fp = [] then none
    else some (ip, fp, r.dropWhile Char.isDigit)
  | _ => if ip = [] then none else some (ip, [], rest)

/-- `strconv.ParseFloat(s, 64)`.  Accepts the case-insensitive special
spellings `nan` (unsigned) and optionally signed `inf` / `infinity`;
otherwise an optionally signed decimal mantissa with an optional decimal
exponent.  Values at or beyond `2^1024` (beyond every finite `float64`)
give a range error, as Go does.  Not modelled (exercised by no claim):
hexadecimal mantissas, digit-separating underscores, and the rounding of
decimal readings to the nearest binary `float64` (together with the range
error Go also raises on extreme underflow). -/
def goParseFloat (s : String) : Except String GoFloat :=
  let low := goToLower s
  if low = "nan" then .ok .nan
  else if low = "inf" ∨ low = "+inf" ∨ low = "infinity" ∨ low = "+infinity" then
    .ok (.inf false)
  else if low = "-inf" ∨ low = "-infinity" then .ok (.inf true)
  else
    let synErr : Except String GoFloat :=
      .error ("strconv.ParseFloat: parsing " ++ goQuote s ++ ": invalid syntax")
    let (neg, rest) := splitSign s.toList
    match splitMantissa rest with
    | none => synErr
    | some (ip, fp, rest2) =>
      let withExp : Option ℤ :=
        match rest2 with
        | [] => some 0
        | 'e' :: r | 'E' :: r =>
          let (eneg, eds) := splitSign r
          if eds = [] ∨ ¬ eds.all Char.isDigit then none
          else some ((if eneg then -1 else 1) * (digitsVal eds : ℤ))
        | _ => none
      match withExp with
      | none => synErr
      | some e =>
        let m : ℕ := digitsVal (ip ++ fp)
        let e' : ℤ := e - fp.length
        -- the exact rational the literal denotes: ±m · 10^e'
        let q : ℚ :=
          if 0 ≤ e' then mkRat ((if neg then -1 else 1) * m * 10 ^ e'.toNat) 1
          else mkRat ((if neg then -1 else 1) * m) (10 ^ (-e').toNat)
        -- overflow: 2^1024 ≤ |q|, phrased over num/den so it computes
        if 2 ^ 1024 * q.den ≤ q.num.natAbs then
          .error ("strconv.ParseFloat: parsing " ++ goQuote s ++ ": value out of range")
        else .ok (.finite q)

/-! ## `encoding/json` scalar decoding, per target Go type

JSON `null` unmarshals into a non-pointer scalar as a no-op without error;
since the receivers in strval.go are freshly declared locals, that leaves
the zero value. -/

/-- Kind word used in `encoding/json`'s `UnmarshalTypeError` texts. -/
def jsonKindName : JToken → String
  | .jbool _ => "bool"
  | .jint _ | .jfloat _ => "number"
  | .jstring _ => "string"
  | .jnull => "null"
  | .jother d => d

/-- `json.Unmarshal(data, &b)` for `b : bool`. -/
def jsonDecodeBool : JToken → Except String Bool
  | .jbool b => .ok b
  | .jnull => .ok false
  | t => .error ("json: cannot unmarshal " ++ jsonKindName t ++
      " into Go value of type bool")

/-- `json.Unmarshal(data, &s)` for `s : string`. -/
def jsonDecodeString : JToken → Except String String
  | .jstring s => .ok s
  | .jnull => .ok ""
  | t => .error ("json: cannot unmarshal " ++ jsonKindName t ++
      " into Go value of type string")

/-- `json.Unmarshal(data, &i)` for `i : int`: only an integer-form numeric
literal that fits in `int64` decodes; a literal with a fraction or exponent
does not. -/
def jsonDecodeInt : JToken → Except String ℤ
  | .jint n =>
    if n < -((2 ^ 63 : ℕ) : ℤ) ∨ ((2 ^ 63 : ℕ) : ℤ) ≤ n then
      .error "json: cannot unmarshal number into Go value of type int"
    else .ok n
  | .jnull => .ok 0
  | t => .error ("json: cannot unmarshal " ++ jsonKindName t ++
      " into Go value of type int")

/-- `json.Unmarshal(data, &f)` for `f : float64`: any numeric literal whose
value fits in the finite `float64` range decodes (carried exactly here,
see the module comment on rounding). -/
def jsonDecodeFloat : JToken → Except String GoFloat
  | .jint n =>
    if 2 ^ 1024 ≤ n.natAbs then
      .error "json: cannot unmarshal number into Go value of type float64"
    else .ok (.finite (mkRat n 1))
  | .jfloat q =>
    if 2 ^ 1024 * q.den ≤ q.num.natAbs then
      .error "json: cannot unmarshal number into Go value of type float64"
    else .ok (.finite q)
  | .jnull => .ok (.finite 0)
  | t => .error ("json: cannot unmarshal " ++ jsonKindName t ++
      " into Go value of type float64")

/-! ## `yaml.v3` scalar node decoding

A YAML scalar node reaches `Decode` with both a resolved kind/value and its
literal text (`n.Value`), and `yaml.v3` is lenient in ways `encoding/json`
is not (decode.go, `decoder.scalar`):

* ANY non-null scalar decodes into a `string` target as its literal text;
* a string-resolved scalar decodes into a `bool` target when it is one of
  the YAML 1.1 compat words (`y`/`yes`/`on`/... and their negatives) —
  the plain spellings of these resolve to `!!str`, not `!!bool`;
* a float-resolved scalar decodes into an `int` target by truncation
  toward zero when the result fits in the target;
* an int-resolved scalar decodes into a `float64` target by widening;
* null decodes into any scalar target as its zero value, without error.

`YNode` therefore carries the literal text alongside the resolved value for
bool/int/float-resolved scalars.  (`yother` covers sequence and mapping
nodes.) -/

/-- `Bool.MarshalJSON`: `json.Marshal(bool(b))`, always a boolean token. -/
def BoolMarshalJSON (b : Bool) : Except String JToken :=
  .ok (.jbool b)

/-- `Int.MarshalJSON`: `json.Marshal(int(i))`, always an integer numeric
token. -/
def IntMarshalJSON (n : ℤ) : Except String JToken :=
  .ok (.jint n)

/-- `Float.MarshalJSON`: `json.Marshal(float64(f))`.  A finite value is
printed in its shortest round-tripping decimal form — an integer-form token
when the value is integral, a fraction/exponent form otherwise.  Encoding a
NaN or infinity is an `*json.UnsupportedValueError`. -/
def FloatMarshalJSON : GoFloat → Except String JToken
  | .finite q => .ok (if q.den = 1 then .jint q.num else .jfloat q)
  | .nan => .error "json: unsupported value: NaN"
  | .inf neg =>
    .error ("json: unsupported value: " ++ (if neg then "-Inf" else "+Inf"))

/-! ## The Bool / Int / Float wrappers: unmarshalling -/

/-- `Bool.UnmarshalJSON` from strval.go: try a native bool decode, then a
string decode followed by `parseBool`; every failure resolves to `false`
plus an error log, and the method always returns `nil`. -/
def BoolUnmarshalJSON (t : JToken) : GoResult Bool :=
  match jsonDecodeBool t with
  | .ok b => ⟨b, [], none⟩
  | .error _ =>
    match jsonDecodeString t with
    | .error e =>
      ⟨false, [⟨"invalid Bool value: not a bool or string", [("error", e)]⟩], none⟩
    | .ok s =>
      match parseBool s with
      | .error e2 =>
        ⟨false, [⟨"invalid Bool string value", [("value", s), ("error", e2)]⟩], none⟩
      | .ok b => ⟨b, [], none⟩

/-- `Int.UnmarshalJSON` from strval.go: native int decode, then string
decode followed by `strconv.Atoi`; failures resolve to `0` plus an error
log, and the method always returns `nil`. -/
def IntUnmarshalJSON (t : JToken) : GoResult ℤ :=
  match jsonDecodeInt t with
  | .ok n => ⟨n, [], none⟩
  | .error _ =>
    match jsonDecodeString t with
    | .error e =>
      ⟨0, [⟨"invalid Int value: not an int or string", [("error", e)]⟩], none⟩
    | .ok s =>
      match goAtoi s with
      | .error e2 =>
        ⟨0, [⟨"invalid Int string value", [("value", s), ("error", e2)]⟩], none⟩
      | .ok n => ⟨n, [], none⟩

/-- `Float.UnmarshalJSON` from strval.go: native float64 decode, then string
decode followed by `strconv.ParseFloat`; failures resolve to `0` plus an
error log, and the method always returns `nil`. -/
def FloatUnmarshalJSON (t : JToken) : GoResult GoFloat :=
  match jsonDecodeFloat t with
  | .ok f => ⟨f, [], none⟩
  | .error _ =>
    match jsonDecodeString t with
    | .error e =>
      ⟨.finite 0, [⟨"invalid Float value: not a float or string", [("error", e)]⟩], none⟩
    | .ok s =>
      match goParseFloat s with
      | .error e2 =>
        ⟨.finite 0, [⟨"invalid Float string value", [("value", s), ("error", e2)]⟩], none⟩
      | .ok f => ⟨f, [], none⟩

/-- Go's conversion `int(floatVal)` for a `float64`: truncation toward zero
for finite values.  For NaN/±Inf the Go specification leaves the result
implementation-dependent; `0` here is an arbitrary model choice exercised by
no claim. -/
def goFloatToInt : GoFloat → ℤ
  | .finite q => q.num.tdiv q.den
  | .nan => 0
  | .inf _ => 0

/-- Type name printed by `fmt.Sprintf("%T", value)` in a Scan fallback log. -/
def sqlTypeName : SqlValue → String
  | .vnull => "<nil>"
  | .vbool _ => "bool"
  | .vint _ => "int64"
  | .vfloat _ => "float64"
  | .vstring _ => "string"
  | .vother tn => tn

/-- `Bool.Scan`: nil → false; native bool adopted; an `int64` raw is taken
as `intVal != 0`; a string goes through `parseBool` with false-plus-log
fallback; any other dynamic type is false plus a log.  Always returns
`nil`. -/
def BoolScan : SqlValue → GoResult Bool
  | .vnull => ⟨false, [], none⟩
  | .vbool b => ⟨b, [], none⟩
  | .vint n => ⟨n != 0, [], none⟩
  | .vstring s =>
    match parseBool s with
    | .error e =>
      ⟨false, [⟨"invalid Bool value from database", [("value", s), ("error", e)]⟩], none⟩
    | .ok b => ⟨b, [], none⟩
  | v => ⟨false,
      [⟨"unsupported Bool value type from database", [("type", sqlTypeName v)]⟩], none⟩

/-- `Int.Scan`: nil → 0; native `int64` adopted; a `float64` raw is
converted by `int(floatVal)` (truncation toward zero); a string goes through
`strconv.Atoi` with zero-plus-log fallback; any other dynamic type is 0 plus
a log.  Always returns `nil`. -/
def IntScan : SqlValue → GoResult ℤ
  | .vnull => ⟨0, [], none⟩
  | .vint n => ⟨n, [], none⟩
  | .vfloat f => ⟨goFloatToInt f, [], none⟩
  | .vstring s =>
    match goAtoi s with
    | .error e =>
      ⟨0, [⟨"invalid Int value from database", [("value", s), ("error", e)]⟩], none⟩
    | .ok n => ⟨n, [], none⟩
  | v => ⟨0,
      [⟨"unsupported Int value type from database", [("type", sqlTypeName v)]⟩], none⟩

/-- `Float.Scan`: nil → 0; native `float64` adopted; an `int64` raw is
widened by `float64(intVal)`; a string goes through `strconv.ParseFloat`
with zero-plus-log fallback; any other dynamic type is 0 plus a log.
Always returns `nil`. -/
def FloatScan : SqlValue → GoResult GoFloat
  | .vnull => ⟨.finite 0, [], none⟩
  | .vfloat f => ⟨f, [], none⟩
  | .vint n => ⟨.finite (mkRat n 1), [], none⟩
  | .vstring s =>
    match goParseFloat s with
    | .error e =>
      ⟨.finite 0, [⟨"invalid Float value from database", [("value", s), ("error", e)]⟩], none⟩
    | .ok f => ⟨f, [], none⟩
  | v => ⟨.finite 0,
      [⟨"unsupported Float value type from database", [("type", sqlTypeName v)]⟩], none⟩

/-! ## The String wrapper -/

/-- Decimal digit character for `d` with `0 ≤ d ≤ 9`. -/
def digitChar (d : ℤ) : Char :=
  Char.ofNat (48 + d.toNat)

/-- Fraction digits of a rational in `[0, 1)`, most significant first,
stopping when the remainder is zero (fuel-bounded; the shortest decimal form
of an actual `float64` always terminates well within the fuel).  One step
peels the leading digit `⌊q·10⌋` off and recurses on the remainder; the
arithmetic is spelled over `num`/`den` so it computes by kernel reduction. -/
def fracDigits : ℕ → ℚ → List Char
  | 0, _ => []
  | fuel + 1, q =>
    if q.num = 0 then []
    else
      let n10 := q.num * 10
      let d := n10.fdiv q.den
      digitChar d :: fracDigits fuel (mkRat (n10 - d * q.den) q.den)

/-- Shortest plain-decimal rendering of a rational: integers render without
a decimal point, others as integer part, point, and the minimal fraction
digits. -/
def ratToDecimalString (q : ℚ) : String :=
  let sign := if q.num < 0 then "-" else ""
  let a : ℚ := mkRat q.num.natAbs q.den
  let ip := a.num.fdiv a.den
  let fr : ℚ := mkRat (a.num - ip * a.den) a.den
  if fr.num = 0 then sign ++ toString ip
  else sign ++ toString ip ++ "." ++ String.mk (fracDigits 1100 fr)

/-- Modelled from the spec: the String wrapper's `Deserialize`
(`String.UnmarshalJSON`).  The implementation file defining the `String`
type is absent from src — only its tests (`strval_string_test.go`,
`TestStringJSONUnmarshal`) are present — so this follows §4.3 of the spec:
a string token is adopted verbatim; a numeric token is rendered in its
canonical shortest round-tripping decimal text; a boolean token renders as
literal `true`/`false`; any other token kind is a propagated failure. -/
def StringUnmarshalJSON : JToken → Except String String
  | .jstring s => .ok s
  | .jint n => .ok (toString n)
  | .jfloat q => .ok (ratToDecimalString q)
  | .jbool b => .ok (if b then "true" else "false")
  | t => .error ("cannot unmarshal " ++ jsonKindName t ++ " into String")

/-! ## Spec-side predicates used to state the claims -/

/-- Token is a boolean token. -/
def isBoolTok : JToken → Bool
  | .jbool _ => true
  | _ => false

/-- Token is a numeric token (integer or fraction/exponent form). -/
def isNumericTok : JToken → Bool
  | .jint _ => true
  | .jfloat _ => true
  | _ => false

/-- Serialize-then-deserialize returns the Boolean value unchanged, with no
log and no error. -/
def boolRoundTrips (b : Bool) : Prop :=
  ∃ t, BoolMarshalJSON b = .ok t ∧ BoolUnmarshalJSON t = ⟨b, [], none⟩

/-- Serialize-then-deserialize returns the Integer value unchanged, with no
log and no error. -/
def intRoundTrips (n : ℤ) : Prop :=
  ∃ t, IntMarshalJSON n = .ok t ∧ IntUnmarshalJSON t = ⟨n, [], none⟩

/-- Serialize-then-deserialize returns the Float value unchanged, with no
log and no error. -/
def floatRoundTrips (f : GoFloat) : Prop :=
  ∃ t, FloatMarshalJSON f = .ok t ∧ FloatUnmarshalJSON t = ⟨f, [], none⟩

/-! ## Helper lemmas -/

/-- C2: the boolean-word parser first trims surrounding whitespace and
lower-cases its input; it returns true exactly when the normalized string is
one of `true`, `yes`, `y`, `1`; returns false without error exactly for
`false`, `no`, `n`, `0`; and for every other input returns a failure whose
message carries the trimmed, lower-cased text. -/
theorem spec_C2_parseBool_grammar (s t : String)
    (ht : goToLower (goTrimSpace s) = t) :
    (parseBool s = .ok true ↔ (t = "true" ∨ t = "yes" ∨ t = "y" ∨ t = "1")) ∧
    (parseBool s = .ok false ↔ (t = "false" ∨ t = "no" ∨ t = "n" ∨ t = "0")) ∧
    (¬(t = "true" ∨ t = "yes" ∨ t = "y" ∨ t = "1") →
     ¬(t = "false" ∨ t = "no" ∨ t = "n" ∨ t = "0") →
      parseBool s = .error ("cannot parse '" ++ t ++ "' as bool")) := by
  subst ht
  simp only [parseBool]
  split_ifs with h1 h2
  · refine ⟨iff_of_true rfl h1, iff_of_false (by simp) ?_, fun hn _ => absurd h1 hn⟩
    rcases h1 with h | h | h | h <;> rw [h] <;> decide
  · refine ⟨iff_of_false (by simp) ?_, iff_of_true rfl h2, fun _ hn => absurd h2 hn⟩
    rcases h2 with h | h | h | h <;> rw [h] <;> decide
  · exact ⟨iff_of_false (by simp) h1, iff_of_false (by simp) h2, fun _ _ => rfl⟩

/-- C2 witness: `" True "` normalizes to `"true"` and parses to true;
`"xyz"` fails with the normalized text in the message. -/
theorem spec_C2_witness :
    parseBool " True " = .ok true ∧
    parseBool "xyz" = .error "cannot parse 'xyz' as bool" := by
  have h1 := spec_C2_parseBool_grammar " True " "true" (by decide)
  have h2 := spec_C2_parseBool_grammar "xyz" "xyz" (by decide)
  exact ⟨h1.1.mpr (by decide), h2.2.2 (by decide) (by decide)⟩

/-! ## Claim C3 -/

/-- C3 counterexample: the Float round trip fails at the native value NaN,
because Serialize of NaN is an encoder error, so there is no serialized
token to deserialize. -/
theorem cex_C3_nan_roundtrip_fails : ¬ floatRoundTrips GoFloat.nan := by
  rintro ⟨t, h, _⟩
  simp [FloatMarshalJSON] at h

/-- C3 (amended): deserializing the output of serializing a native value
yields the value again for every Boolean value, every Integer value in the
`int64` range, and every finite Float value (the amendment forced by
`cex_C3_nan_roundtrip_fails` excludes non-finite Floats, whose Serialize
fails; the bound `q.num.natAbs < 2^1024 * q.den` says |q| is below 2^1024,
which holds for every finite `float64`). -/
theorem spec_C3_roundtrip :
    (∀ b, boolRoundTrips b) ∧
    (∀ n : ℤ, -((2 ^ 63 : ℕ) : ℤ) ≤ n → n < ((2 ^ 63 : ℕ) : ℤ) → intRoundTrips n) ∧
    (∀ q : ℚ, q.num.natAbs < 2 ^ 1024 * q.den → floatRoundTrips (.finite q)) := by
  refine ⟨fun b => ⟨.jbool b, rfl, rfl⟩, fun n h1 h2 => ?_, fun q hq => ?_⟩
  · refine ⟨.jint n, rfl, ?_⟩
    have hd : jsonDecodeInt (.jint n) = .ok n := by
      simp only [jsonDecodeInt]
      rw [if_neg (by push_neg; exact ⟨h1, h2⟩)]
    simp only [IntUnmarshalJSON, hd]
  · by_cases hden : q.den = 1
    · refine ⟨.jint q.num, by simp only [FloatMarshalJSON]; rw [if_pos hden], ?_⟩
      have hd : jsonDecodeFloat (.jint q.num) = .ok (.finite q) := by
        simp only [jsonDecodeFloat]
        rw [if_neg (by rw [hden] at hq; omega)]
        rw [show mkRat q.num 1 = q from hden ▸ Rat.mkRat_self q]
      simp only [FloatUnmarshalJSON, hd]
    · refine ⟨.jfloat q, by simp only [FloatMarshalJSON]; rw [if_neg hden], ?_⟩
      have hd : jsonDecodeFloat (.jfloat q) = .ok (.finite q) := by
        simp only [jsonDecodeFloat]
        rw [if_neg (by omega)]
      simp only [FloatUnmarshalJSON, hd]

/-- C3 witness: concrete round trips for true, 100, and 3.5. -/
theorem spec_C3_witness :
    boolRoundTrips true ∧ intRoundTrips 100 ∧ floatRoundTrips (.finite (mkRat 7 2)) :=
  ⟨spec_C3_roundtrip.1 true, spec_C3_roundtrip.2.1 100 (by decide) (by decide),
   spec_C3_roundtrip.2.2 (mkRat 7 2) (by decide)⟩

/-! ## Claim C4 -/

/-- C4 counterexample: Boolean Scan given the integer-typed raw input 1
adopts it as `1 != 0 = true` with NO diagnostic, contradicting the claim
that every integer-typed raw input resolves the Boolean wrapper to its zero
value with a diagnostic. -/
theorem cex_C4_bool_scan_int_adopts :
    BoolScan (SqlValue.vint 1) = ⟨true, [], none⟩ := by decide

/-- C4 (amended): a Scan raw input whose kind is not null, not the
wrapper's native kind, not a handled cross-kind numeric representation
(float-typed raw for Integer, integer-typed raw for Float, AND — the
amendment forced by `cex_C4_bool_scan_int_adopts` — integer-typed raw for
Boolean, which is adopted as `raw != 0`), and not a string, sets the
wrapper to its zero value, emits a diagnostic, and still returns success.
Concretely: float-typed and non-scalar raws for Boolean, and bool-typed and
non-scalar raws for Integer and Float. -/
theorem spec_C4_unsupported_scan_kinds :
    (∀ f, BoolScan (.vfloat f) =
      ⟨false, [⟨"unsupported Bool value type from database", [("type", "float64")]⟩], none⟩) ∧
    (∀ d, BoolScan (.vother d) =
      ⟨false, [⟨"unsupported Bool value type from database", [("type", d)]⟩], none⟩) ∧
    (∀ b, IntScan (.vbool b) =
      ⟨0, [⟨"unsupported Int value type from database", [("type", "bool")]⟩], none⟩) ∧
    (∀ d, IntScan (.vother d) =
      ⟨0, [⟨"unsupported Int value type from database", [("type", d)]⟩], none⟩) ∧
    (∀ b, FloatScan (.vbool b) =
      ⟨.finite 0, [⟨"unsupported Float value type from database", [("type", "bool")]⟩], none⟩) ∧
    (∀ d, FloatScan (.vother d) =
      ⟨.finite 0, [⟨"unsupported Float value type from database", [("type", d)]⟩], none⟩) :=
  ⟨fun _ => rfl, fun _ => rfl, fun _ => rfl, fun _ => rfl, fun _ => rfl, fun _ => rfl⟩

/-! ## Claim C5 -/

/-- C5: Integer Scan given a float-typed raw truncates toward zero (42.5
yields 42, and -42.5 yields -42), and Float Scan given an integer-typed raw
widens it (42 yields 42.0); both succeed with no diagnostic. -/
theorem spec_C5_cross_kind_scan :
    IntScan (.vfloat (.finite (mkRat 85 2))) = ⟨42, [], none⟩ ∧
    IntScan (.vfloat (.finite (mkRat (-85) 2))) = ⟨-42, [], none⟩ ∧
    FloatScan (.vint 42) = ⟨.finite (mkRat 42 1), [], none⟩ := by
  refine ⟨by decide, by decide, by decide⟩

/-! ## Claim C6 -/

/-- C6 counterexample: Float Serialize of the native value NaN returns an
error (the JSON encoder rejects non-finite floats), contradicting the claim
that Serialize never returns an error for every float64 value. -/
theorem cex_C6_marshal_nan_errors :
    FloatMarshalJSON GoFloat.nan = .error "json: unsupported value: NaN" := rfl

/-- C6 (amended): Serialize emits the wrapped value as its native token kind
and succeeds for every Boolean value, every Integer value, and every FINITE
Float value; for a non-finite Float (NaN or an infinity) it propagates the
encoder's unsupported-value error — the amendment forced by
`cex_C6_marshal_nan_errors`. -/
theorem spec_C6_marshal :
    (∀ b, BoolMarshalJSON b = .ok (.jbool b)) ∧
    (∀ n, IntMarshalJSON n = .ok (.jint n)) ∧
    (∀ q : ℚ, ∃ t, FloatMarshalJSON (.finite q) = .ok t ∧ isNumericTok t = true) ∧
    (FloatMarshalJSON .nan).isOk = false ∧
    (∀ s, (FloatMarshalJSON (.inf s)).isOk = false) := by
  refine ⟨fun _ => rfl, fun _ => rfl, fun q => ?_, rfl, fun _ => rfl⟩
  by_cases hden : q.den = 1
  · exact ⟨.jint q.num, by simp only [FloatMarshalJSON]; rw [if_pos hden], rfl⟩
  · exact ⟨.jfloat q, by simp only [FloatMarshalJSON]; rw [if_neg hden], rfl⟩

/-! ## Claim C7 -/

/-- C7: String Deserialize adopts a string token verbatim; renders numeric
123 as `"123"` and numeric 123.45 as `"123.45"` (shortest round-tripping
decimal text); renders a boolean token as literal `"true"`/`"false"`; and
on any other token kind (null, array/object) returns a propagated failure
rather than a zero-value fallback. -/
theorem spec_C7_string_deserialize :
    (∀ s, StringUnmarshalJSON (.jstring s) = .ok s) ∧
    StringUnmarshalJSON (.jint 123) = .ok "123" ∧
    StringUnmarshalJSON (.jfloat (mkRat 2469 20)) = .ok "123.45" ∧
    (∀ b, StringUnmarshalJSON (.jbool b) = .ok (if b then "true" else "false")) ∧
    (StringUnmarshalJSON .jnull).isOk = false ∧
    (∀ d, (StringUnmarshalJSON (.jother d)).isOk = false) :=
  ⟨fun _ => rfl, by decide, by decide, fun _ => rfl, rfl, fun _ => rfl⟩

/-! ## Claim C8 -/

/-- C8: for every int64 raw database input n, Boolean Scan succeeds with no
diagnostic and stores the truth value of `n != 0`. -/
theorem spec_C8_bool_scan_int (n : ℤ) :
    BoolScan (.vint n) = ⟨n != 0, [], none⟩ ∧ ((n != 0) = true ↔ n ≠ 0) :=
  ⟨rfl, by simp [bne_iff_ne]⟩

/-- C8 witness: the nonzero raw 5 yields true and the raw 0 yields false. -/
theorem spec_C8_witness :
    (BoolScan (.vint 5)).value = true ∧ (BoolScan (.vint 0)).value = false := by
  constructor
  · rw [(spec_C8_bool_scan_int 5).1]; decide
  · rw [(spec_C8_bool_scan_int 0).1]; decide

/-! ## Claim C9 -/

/-- C9: unlike the boolean-word parser, the Integer string parse does not
trim whitespace: the string token `" 42 "` fails `strconv.Atoi`, so Integer
Deserialize resolves to the zero value 0 with a diagnostic while still
reporting success — whereas `"42"` parses to 42 and the Boolean wrapper
accepts the padded `" true "`. -/
theorem spec_C9_int_parse_no_trim :
    goAtoi " 42 " = .error "strconv.Atoi: parsing \" 42 \": invalid syntax" ∧
    IntUnmarshalJSON (.jstring " 42 ") =
      ⟨0, [⟨"invalid Int string value",
        [("value", " 42 "), ("error", "strconv.Atoi: parsing \" 42 \": invalid syntax")]⟩], none⟩ ∧
    IntUnmarshalJSON (.jstring "42") = ⟨42, [], none⟩ ∧
    BoolUnmarshalJSON (.jstring " true ") = ⟨true, [], none⟩ := by
  refine ⟨by decide, by decide, by decide, by decide⟩

/-! ## Claim C10 -/

/-- C10: Float string parsing accepts the non-finite spellings: the string
token `"NaN"` deserializes to NaN and `"Inf"` to positive infinity, with
success and no diagnostic, rather than falling back to the zero value; the
same holds on the database Scan path. -/
theorem spec_C10_float_string_specials :
    FloatUnmarshalJSON (.jstring "NaN") = ⟨.nan, [], none⟩ ∧
    FloatUnmarshalJSON (.jstring "Inf") = ⟨.inf false, [], none⟩ ∧
    FloatScan (.vstring "NaN") = ⟨.nan, [], none⟩ ∧
    FloatScan (.vstring "Inf") = ⟨.inf false, [], none⟩ := by
  refine ⟨by decide, by decide, by decide, by decide⟩

end Strval
